import Mathlib

/- A shallow embedding of main.py from the photo-info-footer repository.
   Modelling conventions: Python strings are Lean strings; the exif tag
   dictionary is an association list in iteration order; exceptions are an
   explicit error type threaded through control flow; the float constants
   0.03, 0.8 and 0.01 combined with int truncation are modelled as exact
   truncating Nat division, which agrees with the double computation for
   all realistic image dimensions; the reverse geocoding service is an
   oracle indexed by the invocation count and the decimal coordinates. -/

/-- Python exceptions that the modelled code can raise. -/
inductive PyErr
  | valueError
  | keyError
deriving DecidableEq, Repr

/-- A decoded image: pixel dimensions plus the net rotation applied so far.
The pixel contents are irrelevant to every claim; the dimensions and the
rotation record are what the footer geometry and orientation logic read. -/
structure Img where
  width : Nat
  height : Nat
  rot : Nat
deriving DecidableEq, Repr

/-- PIL Image.rotate with expand: rotating by 90 or 270 degrees swaps the
dimensions, 180 keeps them. -/
def rotateImg (img : Img) (deg : Nat) : Img :=
  { width := if deg % 180 = 0 then img.width else img.height,
    height := if deg % 180 = 0 then img.height else img.width,
    rot := (img.rot + deg) % 360 }

/-- Lines 149-155 of main.py: the Orientation tag handling. -/
def applyOrientation (img : Img) (v : Nat) : Img :=
  if v = 3 then rotateImg img 180
  else if v = 6 then rotateImg img 270
  else if v = 8 then rotateImg img 90
  else img

/-- Lines 69-74 of main.py: the coordinate converter. -/
def dms_to_decimal (dms : ℚ × ℚ × ℚ) (ref : String) : ℚ :=
  let degrees := dms.1
  let minutes := dms.2.1
  let seconds := dms.2.2
  let result := degrees + minutes / 60 + seconds / 3600
  if ref = "S" ∨ ref = "W" then -result else result

def digitVal (c : Char) : Option Nat :=
  if c.isDigit then some (c.toNat - 48) else none

def natOfDigits : List Char → Option Nat
  | [] => some 0
  | c :: cs =>
    match digitVal c, natOfDigits cs with
    | some d, some rest => some (d * 10 ^ cs.length + rest)
    | _, _ => none

def isLeap (y : Nat) : Bool := (y % 4 == 0 && y % 100 != 0) || y % 400 == 0

def daysInMonth (y m : Nat) : Nat :=
  if m = 2 then (if isLeap y then 29 else 28)
  else if m = 4 ∨ m = 6 ∨ m = 9 ∨ m = 11 then 30
  else 31

/-- The range checks datetime performs when strptime builds a datetime. -/
def validDateTime (y mo d h mi s : Nat) : Bool :=
  decide (1 ≤ y) && decide (y ≤ 9999) && decide (1 ≤ mo) && decide (mo ≤ 12) &&
  decide (1 ≤ d) && decide (d ≤ daysInMonth y mo) &&
  decide (h ≤ 23) && decide (mi ≤ 59) && decide (s ≤ 59)

/-- strptime against the zero padded pattern year sep month sep day, space,
hour colon minute colon second, returning the (year, month, day) triple. -/
def parseTimestamp (sep : Char) (str : String) : Option (Nat × Nat × Nat) :=
  match str.data with
  | [y1, y2, y3, y4, c1, o1, o2, c2, d1, d2, sp, h1, h2, c3, i1, i2, c4, e1, e2] =>
    if c1 == sep && c2 == sep && sp == (' ') && c3 == (':') && c4 == (':') then
      match natOfDigits [y1, y2, y3, y4], natOfDigits [o1, o2], natOfDigits [d1, d2],
            natOfDigits [h1, h2], natOfDigits [i1, i2], natOfDigits [e1, e2] with
      | some y, some mo, some d, some h, some mi, some s =>
        if validDateTime y mo d h mi s then some (y, mo, d) else none
      | _, _, _, _, _, _ => none
    else none
  | _ => none

def monthAbbrev : Nat → String
  | 1 => "Jan"
  | 2 => "Feb"
  | 3 => "Mar"
  | 4 => "Apr"
  | 5 => "May"
  | 6 => "Jun"
  | 7 => "Jul"
  | 8 => "Aug"
  | 9 => "Sep"
  | 10 => "Oct"
  | 11 => "Nov"
  | 12 => "Dec"
  | _ => ""

/-- strftime with the month abbreviation, a space and the year. -/
def formatMonthYear (d : Nat × Nat × Nat) : String :=
  monthAbbrev d.2.1 ++ " " ++ toString d.1

/-- Lines 158-165 and 168-175 of main.py: parse an exif timestamp value
with strptime against the colon pattern and, inside the ValueError handler,
against the dash pattern. In Python an exception raised inside an except
handler propagates out of the whole try statement, so when the value
matches neither pattern the second strptime raises an uncaught ValueError;
the bare except clause only guards the first call and cannot fire for a
string value. -/
def parseDateTag (value : String) : Except PyErr (Option String) :=
  match parseTimestamp (':') value with
  | some d => .ok (some (formatMonthYear d))
  | none =>
    match parseTimestamp ('-') value with
    | some d => .ok (some (formatMonthYear d))
    | none => .error .valueError

def allDigits (cs : List Char) : Bool := cs.all Char.isDigit

/-- The compiled regex of line 179 matched at the head of the character
list: eight digits, an underscore, six digits; returns the 15 matched
characters. -/
def matchStampAt (cs : List Char) : Option (List Char) :=
  match cs with
  | a :: b :: c :: d :: e :: f :: g :: k :: u :: p :: q :: r :: t :: v :: w :: _ =>
    if allDigits [a, b, c, d, e, f, g, k] && u == ('_') && allDigits [p, q, r, t, v, w] then
      some [a, b, c, d, e, f, g, k, u, p, q, r, t, v, w]
    else none
  | _ => none

/-- re.search: the leftmost position where the stamp pattern matches. -/
def searchStamp : List Char → Option (List Char)
  | [] => none
  | c :: rest =>
    match matchStampAt (c :: rest) with
    | some m => some m
    | none => searchStamp rest

/-- strptime of the matched group against year month day underscore hour
minute second. -/
def parseCompactStamp (cs : List Char) : Option (Nat × Nat × Nat) :=
  match cs with
  | [y1, y2, y3, y4, o1, o2, d1, d2, u, h1, h2, i1, i2, e1, e2] =>
    if u == ('_') then
      match natOfDigits [y1, y2, y3, y4], natOfDigits [o1, o2], natOfDigits [d1, d2],
            natOfDigits [h1, h2], natOfDigits [i1, i2], natOfDigits [e1, e2] with
      | some y, some mo, some d, some h, some mi, some s =>
        if validDateTime y mo d h mi s then some (y, mo, d) else none
      | _, _, _, _, _, _ => none
    else none
  | _ => none

/-- Lines 177-182 of main.py: the filename fallback. A match whose digits
do not form a valid timestamp makes strptime raise an uncaught ValueError. -/
def filenameDate (filename : String) : Except PyErr (Option String) :=
  match searchStamp filename.data with
  | none => .ok none
  | some m =>
    match parseCompactStamp m with
    | some d => .ok (some (formatMonthYear d))
    | none => .error .valueError

/-- The guard on line 177: the filename fallback runs in every loop
iteration in which no date has been resolved yet. -/
def fallbackDate (filename : String) (date : Option String) : Except PyErr (Option String) :=
  match date with
  | none => filenameDate filename
  | some v => .ok (some v)

/-- The GPSInfo sub dictionary: key 1 is the latitude reference, key 2 the
latitude DMS triple, key 3 the longitude reference, key 4 the longitude DMS
triple; a key read with .get that is absent yields none. -/
structure GpsData where
  latRef : Option String := none
  latDms : Option (ℚ × ℚ × ℚ) := none
  lonRef : Option String := none
  lonDms : Option (ℚ × ℚ × ℚ) := none
deriving DecidableEq, Repr

/-- Python truthiness of an optional string: absent and empty are falsy. -/
def truthyStr : Option String → Bool
  | none => false
  | some v => v != ""

/-- Python truthiness of an optional DMS triple: a present tuple of three
components is always truthy. -/
def truthyDms : Option (ℚ × ℚ × ℚ) → Bool
  | none => false
  | some _ => true

/-- Line 194 of main.py: all four GPS sub fields present and truthy. -/
def gpsComplete (g : GpsData) : Bool :=
  truthyDms g.latDms && truthyDms g.lonDms && truthyStr g.latRef && truthyStr g.lonRef

/-- Dictionary lookup in the address component mapping. -/
def addrGet (addr : List (String × String)) (k : String) : Option String :=
  (addr.find? (fun kv => kv.1 == k)).map (fun kv => kv.2)

def priorityKeys : List String :=
  ["tourism", "hamlet", "suburb", "town", "municipality", "city_district", "city"]

/-- The loop of lines 214-217: the first priority key present wins. -/
def firstPriorityAux (addr : List (String × String)) : List String → Option String
  | [] => none
  | k :: rest =>
    match addrGet addr k with
    | some v => some v
    | none => firstPriorityAux addr rest

/-- Line 219 of main.py: a direct dictionary index on the country key,
which raises KeyError when the key is absent. -/
def countryFallback (addr : List (String × String)) : Except PyErr (Option String) :=
  match addrGet addr ("country") with
  | some c => .ok (some c)
  | none => .error .keyError

/-- Lines 212-223 of main.py: the priority loop with break, then the
country fallback. A falsy selected value also falls through to the country
lookup because of the truthiness test on line 218. -/
def selectLocation (addr : List (String × String)) : Except PyErr (Option String) :=
  match firstPriorityAux addr priorityKeys with
  | some v => if v != "" then .ok (some v) else countryFallback addr
  | none => countryFallback addr

/-- Outcome of one reverse geocoding invocation: a transient failure that
raises one of the geopy exception kinds, no match, or a match carrying the
address component mapping. -/
inductive GeoResult
  | fail
  | notFound
  | found (addr : List (String × String))
deriving DecidableEq, Repr

/-- One entry of the exif tag dictionary, named after the tag the loop
body recognises; every other tag is otherTag. A dictionary holds each tag
at most once, so each constructor occurs at most once per image. -/
inductive ExifTag
  | orientation (v : Nat)
  | dateTimeOriginal (v : String)
  | dateTime (v : String)
  | gpsInfo (g : GpsData)
  | otherTag
deriving DecidableEq, Repr

/-- The mutable state of the tag loop of process_image, plus the count of
geocoder invocations made so far across all recursive retries. -/
structure LoopState where
  img : Img
  date : Option String
  loc : Option String
  calls : Nat
deriving DecidableEq, Repr

/-- How the tag loop leaves one iteration: continue with a new state, the
early return of line 202 yielding no location, the recursive retry of line
210, or an uncaught exception. -/
inductive TagsOut
  | more (s : LoopState)
  | early (img : Img) (date : Option String) (calls : Nat)
  | retryAt (calls : Nat)
  | raise (e : PyErr) (calls : Nat)
deriving DecidableEq, Repr

/-- The date resolving part of one iteration of the tag loop, lines
158-182 of main.py: the DateTimeOriginal parse, the DateTime parse when no
date is known yet, and the filename fallback when still no date is known. -/
def dateSteps (filename : String) (t : ExifTag) (date : Option String) :
    Except PyErr (Option String) :=
  match (match t with | .dateTimeOriginal v => parseDateTag v | _ => .ok date) with
  | .error e => .error e
  | .ok date1 =>
    match (match date1, t with | none, .dateTime v => parseDateTag v | _, _ => .ok date1) with
    | .error e => .error e
    | .ok date2 => fallbackDate filename date2

/-- One iteration of the tag loop (lines 145-223 of main.py): orientation
rotation, the date cascade, then the GPSInfo handling with its early
return on incomplete GPS data, its recursive retry on a transient
geocoder failure, and the place name selection. The oracle maps the
invocation index and decimal coordinates to the geocoder outcome. -/
def stepTag (oracle : Nat → ℚ × ℚ → GeoResult) (filename : String)
    (t : ExifTag) (s : LoopState) : TagsOut :=
  let img1 := match t with
    | .orientation v => applyOrientation s.img v
    | _ => s.img
  match dateSteps filename t s.date with
  | .error e => .raise e s.calls
  | .ok date3 =>
    match t with
    | .gpsInfo g =>
      match g.latDms, g.lonDms, g.latRef, g.lonRef with
      | some latD, some lonD, some latR, some lonR =>
        if latR != "" && lonR != "" then
          let latitude := dms_to_decimal latD latR
          let longitude := dms_to_decimal lonD lonR
          match oracle s.calls (latitude, longitude) with
          | .fail => .retryAt (s.calls + 1)
          | .notFound => .more ⟨img1, date3, s.loc, s.calls + 1⟩
          | .found addr =>
            match selectLocation addr with
            | .error e => .raise e (s.calls + 1)
            | .ok ls => .more ⟨img1, date3, ls, s.calls + 1⟩
        else .early img1 date3 s.calls
      | _, _, _, _ => .early img1 date3 s.calls
    | _ => .more ⟨img1, date3, s.loc, s.calls⟩

/-- The tag loop itself. -/
def runTags (oracle : Nat → ℚ × ℚ → GeoResult) (filename : String) :
    List ExifTag → LoopState → TagsOut
  | [], s => .more s
  | t :: rest, s =>
    match stepTag oracle filename t s with
    | .more s1 => runTags oracle filename rest s1
    | out => out

/-- The triple process_image returns: image, date string, location string. -/
structure PyRet where
  img : Img
  date : Option String
  loc : Option String
deriving DecidableEq, Repr

instance {ε α : Type} [DecidableEq ε] [DecidableEq α] : DecidableEq (Except ε α) := fun a b =>
  match a, b with
  | .ok x, .ok y => if h : x = y then .isTrue (by simp [h]) else .isFalse (by simp [h])
  | .error x, .error y => if h : x = y then .isTrue (by simp [h]) else .isFalse (by simp [h])
  | .ok _, .error _ => .isFalse (by simp)
  | .error _, .ok _ => .isFalse (by simp)

/-- One full pass of process_image over the tag list either finishes with
a return value or an exception, or asks for a recursive retry; the count
of geocoder invocations is carried alongside. -/
inductive AttemptOut
  | done (r : Except PyErr PyRet) (calls : Nat)
  | retry (calls : Nat)
deriving DecidableEq, Repr

/-- One pass of process_image over the tag list, starting from the given
global geocoder invocation count. -/
def runAttempt (oracle : Nat → ℚ × ℚ → GeoResult) (filename : String)
    (exif : List ExifTag) (img0 : Img) (calls : Nat) : AttemptOut :=
  match runTags oracle filename exif ⟨img0, none, none, calls⟩ with
  | .more s => .done (.ok ⟨s.img, s.date, s.loc⟩) s.calls
  | .early img date c => .done (.ok ⟨img, date, none⟩) c
  | .retryAt c => .retry c
  | .raise e c => .done (.error e) c

/-- Line 210 of main.py: on a transient geocoder failure the whole of
process_image is re-invoked recursively, with no retry counter or bound in
the code. The fuel argument only bounds how many passes the model may
make; none means the recursion did not finish within the given fuel. -/
def processImageGo (oracle : Nat → ℚ × ℚ → GeoResult) (filename : String)
    (exif : List ExifTag) (img0 : Img) : Nat → Nat → Option (Except PyErr PyRet × Nat)
  | 0, _ => none
  | fuel + 1, calls =>
    match runAttempt oracle filename exif img0 calls with
    | .done r c => some (r, c)
    | .retry c => processImageGo oracle filename exif img0 fuel c

/-- App.process_image, lines 126-225 of main.py, including the early
return of lines 141-142 for an image with no exif data. -/
def process_image (oracle : Nat → ℚ × ℚ → GeoResult) (fuel : Nat) (filename : String)
    (img0 : Img) (exif : List ExifTag) : Option (Except PyErr PyRet × Nat) :=
  if exif.isEmpty then some (.ok ⟨img0, none, none⟩, 0)
  else processImageGo oracle filename exif img0 fuel 0

def isRetry : AttemptOut → Bool
  | .retry _ => true
  | .done _ _ => false

/-- Advance the geocoder invocation count by one pass: a pass asking for a
retry moves the count to where it stopped, a pass that finishes freezes
it. -/
def attemptStep (oracle : Nat → ℚ × ℚ → GeoResult) (filename : String)
    (exif : List ExifTag) (img0 : Img) (c : Nat) : Nat :=
  match runAttempt oracle filename exif img0 c with
  | .retry c2 => c2
  | .done _ _ => c

/-- The geocoder invocation count at the start of the k-th pass when the
first pass starts at count c0. -/
def attemptStartFrom (oracle : Nat → ℚ × ℚ → GeoResult) (filename : String)
    (exif : List ExifTag) (img0 : Img) (c0 : Nat) : Nat → Nat
  | 0 => c0
  | k + 1 => attemptStep oracle filename exif img0 (attemptStartFrom oracle filename exif img0 c0 k)

def lowerStr (s : String) : String := String.mk (s.data.map Char.toLower)

def strEndsWith (s suffix : String) : Bool := suffix.data.isSuffixOf s.data

/-- Line 99 of main.py: the lower cased name ends with .jpg or .jpeg. -/
def isImageName (f : String) : Bool :=
  strEndsWith (lowerStr f) (".jpg") || strEndsWith (lowerStr f) (".jpeg")

/-- os.path.join for a plain directory and a relative name. -/
def joinPath (dir f : String) : String := dir ++ "/" ++ f

def afterLastSlash : List Char → List Char → List Char
  | [], acc => acc.reverse
  | c :: rest, acc => if c == ('/') then afterLastSlash rest [] else afterLastSlash rest (c :: acc)

/-- os.path.basename for the slash separated paths this model builds. -/
def basename (p : String) : String := String.mk (afterLastSlash p.data [])

/-- Code point lexicographic order on character lists, as Python compares
strings. -/
def charLe : List Char → List Char → Bool
  | [], _ => true
  | _ :: _, [] => false
  | a :: as, b :: bs => if a = b then charLe as bs else decide (a < b)

def strLe (a b : String) : Bool := charLe a.data b.data

def insertSorted (a : String) : List String → List String
  | [] => [a]
  | b :: bs => if strLe a b then a :: b :: bs else b :: insertSorted a bs

/-- list.sort: an ascending sort by the string order. -/
def pySort (l : List String) : List String := l.foldr insertSorted []

/-- Lines 98-100 of main.py: iterating over the list while removing from
it. The Python iterator advances its index after every step even when the
current element was removed, so the element that slides into the freed
slot is never examined. The fuel is the initial length, an upper bound on
the number of iterations; list.remove of the current element is
List.erase. -/
def filterFiles : Nat → Nat → List String → List String
  | 0, _, files => files
  | fuel + 1, i, files =>
    if h : i < files.length then
      filterFiles fuel (i + 1)
        (if isImageName files[i] then files else files.erase files[i])
    else files

/-- App.get_image_files, lines 90-106 of main.py: filter the listing,
prepend the input directory, sort. -/
def get_image_files (input : String) (listing : List String) : List String :=
  pySort ((filterFiles listing.length 0 listing).map (fun f => joinPath input f))

/-- os.path.exists over the modelled set of output basenames. -/
def hasName : List String → String → Bool
  | [], _ => false
  | x :: xs, b => if x = b then true else hasName xs b

/-- The observable content of one saved output image: the basename it is
saved under and everything add_footer computes onto it. -/
structure FooterOut where
  name : String
  width : Nat
  height : Nat
  footerHeight : Nat
  textSize : Nat
  textX : Nat
  textY : Int
  text : String
  rot : Nat
deriving DecidableEq, Repr

/-- App.add_footer, lines 227-270 of main.py. The config argument models
self.config, which the method never reads; the local defaults of lines
232-233 are dead stores. Band height is int of height times 0.03, text
size int of that times 0.8, left margin int of width times 0.01, all
modelled as exact truncating division. -/
def add_footer (config : List (String × String)) (filename : String) (img : Img)
    (date : String) (loc : Option String) : FooterOut :=
  let width := img.width
  let height := img.height
  let footerHeight := height * 3 / 100
  let textSize := footerHeight * 4 / 5
  let textX := width / 100
  let textY : Int := (height : Int) - footerHeight
  let text := match loc with
    | some l => if l != "" then date ++ " > " ++ l else date
    | none => date
  ⟨basename filename, width, height, footerHeight, textSize, textX, textY, text, img.rot⟩

/-- The collaborators of the batch driver: per file the decoded image and
exif tags, per file the geocoder oracle, and the retry fuel granted to the
model of each process_image call. -/
structure BatchEnv where
  meta : String → Img × List ExifTag
  geo : String → Nat → ℚ × ℚ → GeoResult
  fuel : Nat

def runFile (env : BatchEnv) (filename : String) : Option (Except PyErr PyRet × Nat) :=
  process_image (env.geo filename) env.fuel filename
    (env.meta filename).1 (env.meta filename).2

/-- App.process_images, lines 108-124 of main.py, over an explicit file
list: returns the footers written in order, the final set of output
basenames, and whether the loop ran to completion. An uncaught exception
or a never ending retry recursion aborts the batch with no further
writes. -/
def processFiles (env : BatchEnv) (config : List (String × String)) (overwrite : Bool) :
    List String → List String → List FooterOut × List String × Bool
  | [], outputs => ([], outputs, true)
  | filename :: rest, outputs =>
    if !overwrite && hasName outputs (basename filename) then
      processFiles env config overwrite rest outputs
    else
      match runFile env filename with
      | none => ([], outputs, false)
      | some (.error _, _) => ([], outputs, false)
      | some (.ok r, _) =>
        if truthyStr r.date then
          (add_footer config filename r.img (r.date.getD ("")) r.loc ::
              (processFiles env config overwrite rest (basename filename :: outputs)).1,
            (processFiles env config overwrite rest (basename filename :: outputs)).2.1,
            (processFiles env config overwrite rest (basename filename :: outputs)).2.2)
        else
          processFiles env config overwrite rest outputs

/-- The batch driver composed with file enumeration. -/
def process_images (env : BatchEnv) (config : List (String × String)) (overwrite : Bool)
    (outputs0 : List String) (input : String) (listing : List String) :
    List FooterOut × List String × Bool :=
  processFiles env config overwrite (get_image_files input listing) outputs0

/-- Lines 336-345 of main.py: when the config file does not exist it is
created holding footer-height 40, otherwise the on disk mapping is read;
the result is handed to App and never consulted again. -/
def startupConfig (existsOnDisk : Bool) (onDisk : List (String × String)) :
    List (String × String) :=
  if existsOnDisk then onDisk else [("footer-height", "40")]

/-- True when the list holds no GPSInfo tag. -/
def noGpsTags : List ExifTag → Bool
  | [] => true
  | .gpsInfo _ :: _ => false
  | _ :: rest => noGpsTags rest

/-- True for tags that touch neither the date cascade nor the GPS logic. -/
def plainTag : ExifTag → Bool
  | .orientation _ => true
  | .otherTag => true
  | _ => false

def img100 : Img := ⟨100, 100, 0⟩

/-- A GPSInfo block holding only the latitude sub fields. -/
def gpsLatOnly : GpsData := { latRef := some ("N"), latDms := some (10, 30, 0) }

/-- A complete GPSInfo block. -/
def gpsFull : GpsData :=
  { latRef := some ("N"), latDms := some (10, 30, 0),
    lonRef := some ("E"), lonDms := some (20, 0, 0) }

/-- A geocoder that always reports no match. -/
def geoNone : Nat → ℚ × ℚ → GeoResult := fun _ _ => .notFound

/-- A geocoder whose first invocation fails transiently and whose later
invocations find a city. -/
def geoC6 : Nat → ℚ × ℚ → GeoResult := fun n _ =>
  if n = 0 then .fail else .found [("city", "Springfield")]

/-- A geocoder that finds an address holding neither a priority key nor a
country key. -/
def geoRoadOnly : Nat → ℚ × ℚ → GeoResult := fun _ _ => .found [("road", "Main St")]

def exifC1 : List ExifTag := [.dateTimeOriginal ("2018/05/20 09:37:24")]

def envC1 : BatchEnv := ⟨fun _ => (img100, exifC1), fun _ => geoNone, 1⟩

def exifC2 : List ExifTag := [.gpsInfo gpsLatOnly, .dateTimeOriginal ("2018:05:20 09:37:24")]

def envC2 : BatchEnv := ⟨fun _ => (img100, exifC2), fun _ => geoNone, 1⟩

def exifC6 : List ExifTag := [.gpsInfo gpsFull]

def envC9 : BatchEnv :=
  ⟨fun _ => (img100, [.dateTimeOriginal ("2018:05:20 09:37:24")]), fun _ => geoNone, 1⟩


theorem hasName_iff (l : List String) (b : String) : hasName l b = true ↔ b ∈ l := by
  induction l with
  | nil => simp [hasName]
  | cons x xs ih =>
    by_cases h : x = b
    · subst h
      simp [hasName]
    · have h2 : ¬b = x := fun hh => h hh.symm
      simp [hasName, h, h2, ih, List.mem_cons]

theorem add_footer_config_eq (c1 c2 : List (String × String)) (fn : String) (img : Img)
    (d : String) (l : Option String) : add_footer c1 fn img d l = add_footer c2 fn img d l := rfl

theorem processFiles_config_eq (env : BatchEnv) (c1 c2 : List (String × String)) (ov : Bool) :
    ∀ files outputs, processFiles env c1 ov files outputs = processFiles env c2 ov files outputs := by
  intro files
  induction files with
  | nil => intro outputs; rfl
  | cons f rest ih =>
    intro outputs
    simp only [processFiles]
    split
    · exact ih outputs
    · rcases hr : runFile env f with _ | ⟨r, n⟩
      · rfl
      · rcases r with e | v
        · rfl
        · dsimp only
          split
          · rw [ih (basename f :: outputs)]
            rfl
          · exact ih outputs

/-- C10: the footer geometry is independent of the configuration store:
the band height is always 3 percent of the image height, the text size 80
percent of the band, and two runs that differ only in the configuration
mapping (in particular in the footer-height value written at startup but
never read back) produce identical outputs for the same inputs. -/
theorem c10_footer_config_independent :
    (∀ c1 c2 fn img d l, add_footer c1 fn img d l = add_footer c2 fn img d l) ∧
    (∀ c fn img d l, (add_footer c fn img d l).footerHeight = img.height * 3 / 100 ∧
        (add_footer c fn img d l).textSize = img.height * 3 / 100 * 4 / 5) ∧
    (∀ env c1 c2 ov outputs0 input listing,
        process_images env c1 ov outputs0 input listing =
          process_images env c2 ov outputs0 input listing) ∧
    (∀ env e1 e2 d1 d2 ov outputs0 input listing,
        process_images env (startupConfig e1 d1) ov outputs0 input listing =
          process_images env (startupConfig e2 d2) ov outputs0 input listing) := by
  refine ⟨fun c1 c2 fn img d l => rfl, fun c fn img d l => ⟨rfl, rfl⟩, ?_, ?_⟩
  · intro env c1 c2 ov outputs0 input listing
    exact processFiles_config_eq env c1 c2 ov _ outputs0
  · intro env e1 e2 d1 d2 ov outputs0 input listing
    exact processFiles_config_eq env _ _ ov _ outputs0

/-- C7: for nonnegative DMS components the converter output has magnitude
degrees plus minutes over 60 plus seconds over 3600, and is negated
exactly when the hemisphere reference is S or W; the function is total, so
it has no error path. -/
theorem c7_dms_conversion (d m s : ℚ) (ref : String)
    (hd : 0 ≤ d) (hm : 0 ≤ m) (hs : 0 ≤ s) :
    |dms_to_decimal (d, m, s) ref| = d + m / 60 + s / 3600 ∧
    ((ref = "S" ∨ ref = "W") → dms_to_decimal (d, m, s) ref = -(d + m / 60 + s / 3600)) ∧
    (¬(ref = "S" ∨ ref = "W") → dms_to_decimal (d, m, s) ref = d + m / 60 + s / 3600) := by
  have h1 : 0 ≤ m / 60 := by
    apply div_nonneg hm
    norm_num
  have h2 : 0 ≤ s / 3600 := by
    apply div_nonneg hs
    norm_num
  have hsum : 0 ≤ d + m / 60 + s / 3600 := add_nonneg (add_nonneg hd h1) h2
  have hval : dms_to_decimal (d, m, s) ref =
      if ref = "S" ∨ ref = "W" then -(d + m / 60 + s / 3600) else d + m / 60 + s / 3600 := rfl
  by_cases href : ref = "S" ∨ ref = "W"
  · rw [hval, if_pos href]
    refine ⟨?_, fun _ => rfl, fun h => absurd href h⟩
    rw [abs_neg]
    exact abs_of_nonneg hsum
  · rw [hval, if_neg href]
    exact ⟨abs_of_nonneg hsum, fun h => absurd h href, fun _ => rfl⟩

theorem c7_dms_conversion_witness :
    |dms_to_decimal (10, 30, 0) ("S")| = 10 + 30 / 60 + 0 / 3600 :=
  (c7_dms_conversion 10 30 0 ("S") (by norm_num) (by norm_num) (by norm_num)).1

/-- C1 is a code bug: a DateTimeOriginal value matching neither timestamp
pattern makes the second strptime, which runs inside the ValueError
handler, raise an uncaught ValueError instead of being logged, and the
unprotected loop in process_images lets that abort the whole batch. This
theorem evaluates the embedded code at such a value. -/
theorem c1_unparsable_date_raises :
    parseDateTag ("2018/05/20 09:37:24") = .error .valueError ∧
    process_image geoNone 1 ("in/bad.jpg") img100 exifC1 = some (.error .valueError, 0) ∧
    (processFiles envC1 [] false ["in/bad.jpg"] []).2.2 = false := by decide

/-- C3 is a code bug: when no priority key is present and the country key
is also absent, the direct dictionary index of line 219 raises KeyError
instead of logging and returning no location. This theorem evaluates the
embedded code at such an address mapping, both in isolation and through a
full process_image call. -/
theorem c3_missing_country_raises :
    selectLocation [("road", "Main St")] = .error .keyError ∧
    process_image geoRoadOnly 1 ("in/a.jpg") img100 [.gpsInfo gpsFull] =
      some (.error .keyError, 1) := by decide

/-- C5 is a code bug: removing elements from the list while iterating over
it skips the element that slides into the freed slot, so the second of two
adjacent non image files survives the filter, contradicting the comment
above the loop; the returned list is sorted but contains a name without a
jpg or jpeg extension. -/
theorem c5_filter_keeps_nonimage :
    get_image_files ("in") ["a.txt", "b.txt", "c.jpg"] = ["in/b.txt", "in/c.jpg"] ∧
    isImageName ("b.txt") = false := by decide

theorem attemptStartFrom_shift (oracle : Nat → ℚ × ℚ → GeoResult) (fn : String)
    (exif : List ExifTag) (img0 : Img) (c0 c : Nat)
    (h : runAttempt oracle fn exif img0 c0 = .retry c) (k : Nat) :
    attemptStartFrom oracle fn exif img0 c0 (k + 1) = attemptStartFrom oracle fn exif img0 c k := by
  induction k with
  | zero => simp [attemptStartFrom, attemptStep, h]
  | succ k ih =>
    simp only [attemptStartFrom] at ih ⊢
    rw [ih]

theorem processImageGo_isSome_iff (oracle : Nat → ℚ × ℚ → GeoResult) (fn : String)
    (exif : List ExifTag) (img0 : Img) :
    ∀ c0, (∃ fuel, (processImageGo oracle fn exif img0 fuel c0).isSome = true) ↔
      (∃ k, isRetry (runAttempt oracle fn exif img0
        (attemptStartFrom oracle fn exif img0 c0 k)) = false) := by
  intro c0
  constructor
  · rintro ⟨fuel, hf⟩
    induction fuel generalizing c0 with
    | zero => simp [processImageGo] at hf
    | succ fuel ih =>
      rcases hA : runAttempt oracle fn exif img0 c0 with ⟨r, c⟩ | c
      · exact ⟨0, by simp [attemptStartFrom, hA, isRetry]⟩
      · simp only [processImageGo, hA] at hf
        obtain ⟨k, hk⟩ := ih c hf
        refine ⟨k + 1, ?_⟩
        rw [attemptStartFrom_shift oracle fn exif img0 c0 c hA k]
        exact hk
  · rintro ⟨k, hk⟩
    induction k generalizing c0 with
    | zero =>
      rcases hA : runAttempt oracle fn exif img0 c0 with ⟨r, c⟩ | c
      · exact ⟨1, by simp [processImageGo, hA]⟩
      · simp [attemptStartFrom, hA, isRetry] at hk
    | succ k ih =>
      rcases hA : runAttempt oracle fn exif img0 c0 with ⟨r, c⟩ | c
      · exact ⟨1, by simp [processImageGo, hA]⟩
      · rw [attemptStartFrom_shift oracle fn exif img0 c0 c hA k] at hk
        obtain ⟨fuel, hf⟩ := ih c hk
        exact ⟨fuel + 1, by simpa [processImageGo, hA] using hf⟩

/-- C6: a transient geocoding failure makes process_image re-invoke itself
recursively, once per occurrence and with no retry counter or bound (first
conjunct: the recursion equation for a failing pass), and processing of
the image terminates exactly when some pass of the attempt sequence does
not end in a transient geocoding failure (second conjunct). -/
theorem c6_retry_termination (oracle : Nat → ℚ × ℚ → GeoResult) (fn : String)
    (img0 : Img) (exif : List ExifTag) (hne : exif ≠ []) :
    (∀ fuel calls c, runAttempt oracle fn exif img0 calls = .retry c →
        processImageGo oracle fn exif img0 (fuel + 1) calls =
          processImageGo oracle fn exif img0 fuel c) ∧
    ((∃ fuel, (process_image oracle fuel fn img0 exif).isSome = true) ↔
      (∃ k, isRetry (runAttempt oracle fn exif img0
        (attemptStartFrom oracle fn exif img0 0 k)) = false)) := by
  constructor
  · intro fuel calls c h
    simp [processImageGo, h]
  · have hE : exif.isEmpty = false := by
      cases exif with
      | nil => exact absurd rfl hne
      | cons a l => rfl
    have hpe : ∀ fuel, process_image oracle fuel fn img0 exif =
        processImageGo oracle fn exif img0 fuel 0 := fun fuel => by
      simp [process_image, hE]
    simp only [hpe]
    exact processImageGo_isSome_iff oracle fn exif img0 0

theorem c6_retry_termination_witness :
    ∃ fuel, (process_image geoC6 fuel ("a.jpg") img100 exifC6).isSome = true := by
  have h := c6_retry_termination geoC6 ("a.jpg") img100 exifC6 (by decide)
  exact h.2.mpr ⟨1, by decide⟩

theorem dateSteps_gps (fn : String) (g : GpsData) (date : Option String) :
    dateSteps fn (.gpsInfo g) date = fallbackDate fn date := by
  cases date <;> rfl

theorem dateSteps_plain (fn : String) (t : ExifTag) (ht : plainTag t = true)
    (date : Option String) : dateSteps fn t date = fallbackDate fn date := by
  cases t with
  | orientation v => cases date <;> rfl
  | otherTag => cases date <;> rfl
  | dateTimeOriginal v => simp [plainTag] at ht
  | dateTime v => simp [plainTag] at ht
  | gpsInfo g => simp [plainTag] at ht

theorem runTags_append (oracle : Nat → ℚ × ℚ → GeoResult) (fn : String) :
    ∀ (pre rest : List ExifTag) (s : LoopState),
      runTags oracle fn (pre ++ rest) s =
        match runTags oracle fn pre s with
        | .more s1 => runTags oracle fn rest s1
        | out => out := by
  intro pre
  induction pre with
  | nil => intro rest s; rfl
  | cons t pre ih =>
    intro rest s
    simp only [List.cons_append, runTags]
    rcases hst : stepTag oracle fn t s with s1 | ⟨img, date, c⟩ | c | ⟨e, c⟩
    · exact ih rest s1
    · rfl
    · rfl
    · rfl

theorem noGpsTags_cons (t : ExifTag) (rest : List ExifTag)
    (h : noGpsTags (t :: rest) = true) :
    noGpsTags [t] = true ∧ noGpsTags rest = true := by
  cases t <;> simp_all [noGpsTags]

theorem stepTag_nonGps_shape (oracle : Nat → ℚ × ℚ → GeoResult) (fn : String)
    (t : ExifTag) (s : LoopState) (ht : noGpsTags [t] = true) :
    (∃ e, stepTag oracle fn t s = .raise e s.calls) ∨
    (∃ img1 d3, stepTag oracle fn t s = .more ⟨img1, d3, s.loc, s.calls⟩) := by
  cases t with
  | gpsInfo g => simp [noGpsTags] at ht
  | orientation v =>
    rcases hd : dateSteps fn (.orientation v) s.date with e | d3
    · exact .inl ⟨e, by simp [stepTag, hd]⟩
    · exact .inr ⟨applyOrientation s.img v, d3, by simp [stepTag, hd]⟩
  | otherTag =>
    rcases hd : dateSteps fn .otherTag s.date with e | d3
    · exact .inl ⟨e, by simp [stepTag, hd]⟩
    · exact .inr ⟨s.img, d3, by simp [stepTag, hd]⟩
  | dateTimeOriginal v =>
    rcases hd : dateSteps fn (.dateTimeOriginal v) s.date with e | d3
    · exact .inl ⟨e, by simp [stepTag, hd]⟩
    · exact .inr ⟨s.img, d3, by simp [stepTag, hd]⟩
  | dateTime v =>
    rcases hd : dateSteps fn (.dateTime v) s.date with e | d3
    · exact .inl ⟨e, by simp [stepTag, hd]⟩
    · exact .inr ⟨s.img, d3, by simp [stepTag, hd]⟩

theorem runTags_more_noGps (oracle : Nat → ℚ × ℚ → GeoResult) (fn : String) :
    ∀ (l : List ExifTag) (s s1 : LoopState), noGpsTags l = true →
      runTags oracle fn l s = .more s1 → s1.calls = s.calls ∧ s1.loc = s.loc := by
  intro l
  induction l with
  | nil =>
    intro s s1 _ h
    have : TagsOut.more s = .more s1 := h
    cases this
    exact ⟨rfl, rfl⟩
  | cons t rest ih =>
    intro s s1 hn h
    obtain ⟨hnt, hnr⟩ := noGpsTags_cons t rest hn
    rcases stepTag_nonGps_shape oracle fn t s hnt with ⟨e, hst⟩ | ⟨img1, d3, hst⟩
    · simp [runTags, hst] at h
    · simp only [runTags, hst] at h
      obtain ⟨h1, h2⟩ := ih ⟨img1, d3, s.loc, s.calls⟩ s1 hnr h
      exact ⟨h1, h2⟩

theorem stepTag_gps_incomplete (oracle : Nat → ℚ × ℚ → GeoResult) (fn : String)
    (g : GpsData) (s : LoopState)
    (hg : g.latDms = none ∨ g.lonDms = none ∨ g.latRef = none ∨ g.lonRef = none) :
    stepTag oracle fn (.gpsInfo g) s =
      match fallbackDate fn s.date with
      | .error e => .raise e s.calls
      | .ok d3 => .early s.img d3 s.calls := by
  obtain ⟨glatRef, glatDms, glonRef, glonDms⟩ := g
  rcases hd : fallbackDate fn s.date with e | d3 <;>
    rcases glatDms with _ | latD <;> rcases glonDms with _ | lonD <;>
      rcases glatRef with _ | latR <;> rcases glonRef with _ | lonR <;>
        simp_all [stepTag, dateSteps_gps]

/-- C8: for an image whose GPSInfo block misses one of the four required
sub fields, process_image performs the early return of line 202: the
location component of the result is absent whenever a result is produced,
and the geocoding collaborator is never invoked (the invocation count of
the result is 0, and zero geocoder calls were made before the GPSInfo tag
because the tag occurs only once). -/
theorem c8_incomplete_gps (oracle : Nat → ℚ × ℚ → GeoResult) (fn : String)
    (img0 : Img) (fuel : Nat) (pre suf : List ExifTag) (g : GpsData) (s : LoopState)
    (hpre : noGpsTags pre = true)
    (hrun : runTags oracle fn pre ⟨img0, none, none, 0⟩ = .more s)
    (hg : g.latDms = none ∨ g.lonDms = none ∨ g.latRef = none ∨ g.lonRef = none) :
    process_image oracle (fuel + 1) fn img0 (pre ++ .gpsInfo g :: suf) =
      some ((match fallbackDate fn s.date with
             | .error e => .error e
             | .ok d3 => .ok ⟨s.img, d3, none⟩), s.calls) ∧
    s.calls = 0 := by
  have hcalls := runTags_more_noGps oracle fn pre ⟨img0, none, none, 0⟩ s hpre hrun
  have hne : (pre ++ ExifTag.gpsInfo g :: suf).isEmpty = false := by
    cases pre <;> rfl
  have hst := stepTag_gps_incomplete oracle fn g s hg
  refine ⟨?_, hcalls.1⟩
  have hrt : runTags oracle fn (pre ++ ExifTag.gpsInfo g :: suf) ⟨img0, none, none, 0⟩ =
      match fallbackDate fn s.date with
      | .error e => TagsOut.raise e s.calls
      | .ok d3 => TagsOut.early s.img d3 s.calls := by
    rw [runTags_append oracle fn pre (ExifTag.gpsInfo g :: suf) ⟨img0, none, none, 0⟩, hrun]
    rcases hd : fallbackDate fn s.date with e | d3 <;>
      rw [hd] at hst <;> simp [runTags, hst]
  rcases hd : fallbackDate fn s.date with e | d3 <;>
    rw [hd] at hrt <;>
      simp [process_image, hne, processImageGo, runAttempt, hrt]

theorem c8_incomplete_gps_witness :
    process_image geoNone 1 ("in/a.jpg") img100 [.orientation 6, .gpsInfo gpsLatOnly] =
      some (.ok ⟨⟨100, 100, 270⟩, none, none⟩, 0) := by
  have h := c8_incomplete_gps geoNone ("in/a.jpg") img100 0 [.orientation 6] []
    gpsLatOnly ⟨⟨100, 100, 270⟩, none, none, 0⟩ (by decide) (by decide) (by decide)
  exact h.1

/-- C2 counterexample: an image whose GPSInfo tag precedes its valid
DateTimeOriginal tag in the metadata iteration order, with a filename
carrying no date stamp, hits the early return of line 202 before the date
tag is seen: although a date is resolvable from DateTimeOriginal (first
conjunct), process_image returns no date, and the batch completes while
writing no footer for the image. -/
theorem c2_counterexample :
    parseDateTag ("2018:05:20 09:37:24") = .ok (some ("May 2018")) ∧
    process_image geoNone 1 ("in/a.jpg") img100 exifC2 =
      some (.ok ⟨img100, none, none⟩, 0) ∧
    (processFiles envC2 [] false ["in/a.jpg"] []).1 = [] ∧
    (processFiles envC2 [] false ["in/a.jpg"] []).2.2 = true := by decide

/-- C2 as amended: when the date has already been resolved by the time the
incomplete GPSInfo tag is encountered (from earlier date tags or the
filename stamp), the missing GPS sub fields never prevent the footer: the
image resolves with its date and no location, the batch writes a footer
for it, and the caption text of that footer is exactly the date string. -/
theorem c2_amended_footer_written (oracle : Nat → ℚ × ℚ → GeoResult) (fn : String)
    (img0 : Img) (fuel : Nat) (pre suf : List ExifTag) (g : GpsData) (s : LoopState)
    (d : String)
    (hrun : runTags oracle fn pre ⟨img0, none, none, 0⟩ = .more s)
    (hdate : s.date = some d) (hd : d ≠ "")
    (hg : g.latDms = none ∨ g.lonDms = none ∨ g.latRef = none ∨ g.lonRef = none) :
    process_image oracle (fuel + 1) fn img0 (pre ++ .gpsInfo g :: suf) =
      some (.ok ⟨s.img, some d, none⟩, s.calls) ∧
    (∀ env config rest outputs,
      env.meta fn = (img0, pre ++ .gpsInfo g :: suf) →
      env.geo fn = oracle → env.fuel = fuel + 1 →
      hasName outputs (basename fn) = false →
      ∃ tail, (processFiles env config false (fn :: rest) outputs).1 =
        add_footer config fn s.img d none :: tail) ∧
    (add_footer ([]) fn s.img d none).text = d := by
  have hne : (pre ++ ExifTag.gpsInfo g :: suf).isEmpty = false := by
    cases pre <;> rfl
  have hst := stepTag_gps_incomplete oracle fn g s hg
  rw [hdate] at hst
  simp only [fallbackDate] at hst
  have hrt : runTags oracle fn (pre ++ ExifTag.gpsInfo g :: suf) ⟨img0, none, none, 0⟩ =
      .early s.img (some d) s.calls := by
    rw [runTags_append oracle fn pre (ExifTag.gpsInfo g :: suf) ⟨img0, none, none, 0⟩, hrun]
    simp [runTags, hst]
  have hp1 : process_image oracle (fuel + 1) fn img0 (pre ++ .gpsInfo g :: suf) =
      some (.ok ⟨s.img, some d, none⟩, s.calls) := by
    simp [process_image, hne, processImageGo, runAttempt, hrt]
  refine ⟨hp1, ?_, rfl⟩
  intro env config rest outputs hm hgeo hfuel hout
  have hrf : runFile env fn = some (.ok ⟨s.img, some d, none⟩, s.calls) := by
    rw [runFile, hm, hgeo, hfuel]
    exact hp1
  refine ⟨(processFiles env config false rest (basename fn :: outputs)).1, ?_⟩
  simp [processFiles, hout, hrf, truthyStr, hd]

theorem c2_amended_footer_written_witness :
    process_image geoNone 1 ("in/a.jpg") img100
      [.dateTimeOriginal ("2018:05:20 09:37:24"), .gpsInfo gpsLatOnly] =
      some (.ok ⟨img100, some ("May 2018"), none⟩, 0) := by
  have h := c2_amended_footer_written geoNone ("in/a.jpg") img100 0
    [.dateTimeOriginal ("2018:05:20 09:37:24")] [] gpsLatOnly
    ⟨img100, some ("May 2018"), none, 0⟩ ("May 2018") (by decide) rfl (by decide) (by decide)
  exact h.1

/-- C4 counterexample: for an image with no exif metadata at all,
process_image returns on line 142 before the tag loop, so the filename
stamp is never consulted even though it parses to May 2018: the resolved
date is absent, refuting the claim for that case. -/
theorem c4_counterexample :
    process_image geoNone 1 ("input/20180520_093724.jpg") img100 [] =
      some (.ok ⟨img100, none, none⟩, 0) ∧
    filenameDate ("input/20180520_093724.jpg") = .ok (some ("May 2018")) := by decide

theorem runTags_plain_dates (oracle : Nat → ℚ × ℚ → GeoResult) (fn : String) :
    ∀ (l : List ExifTag) (s : LoopState) (d : String),
      (∀ t ∈ l, plainTag t = true) → s.date = some d →
      ∃ img1, runTags oracle fn l s = .more ⟨img1, some d, s.loc, s.calls⟩ := by
  intro l
  induction l with
  | nil =>
    intro s d _ hdate
    refine ⟨s.img, ?_⟩
    rw [← hdate]
    rfl
  | cons t rest ih =>
    intro s d hall hdate
    have hplain : plainTag t = true := hall t (by simp)
    have hrest : ∀ t2 ∈ rest, plainTag t2 = true := fun t2 ht2 => hall t2 (by simp [ht2])
    have hds : dateSteps fn t s.date = .ok (some d) := by
      rw [hdate, dateSteps_plain fn t hplain]
      rfl
    obtain ⟨img1, hst⟩ : ∃ img1,
        stepTag oracle fn t s = .more ⟨img1, some d, s.loc, s.calls⟩ := by
      cases t with
      | orientation v => exact ⟨applyOrientation s.img v, by simp [stepTag, hds]⟩
      | otherTag => exact ⟨s.img, by simp [stepTag, hds]⟩
      | dateTimeOriginal v => simp [plainTag] at hplain
      | dateTime v => simp [plainTag] at hplain
      | gpsInfo g2 => simp [plainTag] at hplain
    obtain ⟨img2, hrt⟩ := ih ⟨img1, some d, s.loc, s.calls⟩ d hrest rfl
    exact ⟨img2, by simpa [runTags, hst] using hrt⟩

/-- C4 as amended: the filename fallback runs inside the tag loop, so it
is consulted exactly for images carrying at least one metadata tag. For
any image whose tags touch neither the date cascade nor the GPS logic,
a filename whose stamp parses resolves to that date (first conjunct, for
example May 2018 for a 20180520_093724 stamp), while an image with no
exif metadata at all resolves to no date whatever its filename (second
conjunct). -/
theorem c4_amended_filename_fallback (oracle : Nat → ℚ × ℚ → GeoResult) (fn : String)
    (img0 : Img) (fuel : Nat) (t0 : ExifTag) (rest : List ExifTag) (d : String)
    (hall : ∀ t ∈ t0 :: rest, plainTag t = true)
    (hfn : filenameDate fn = .ok (some d)) :
    (∃ img1, process_image oracle (fuel + 1) fn img0 (t0 :: rest) =
        some (.ok ⟨img1, some d, none⟩, 0)) ∧
    (∀ fn2, process_image oracle (fuel + 1) fn2 img0 [] =
        some (.ok ⟨img0, none, none⟩, 0)) := by
  have hplain0 : plainTag t0 = true := hall t0 (by simp)
  have hds : dateSteps fn t0 (none : Option String) = .ok (some d) := by
    rw [dateSteps_plain fn t0 hplain0]
    exact hfn
  obtain ⟨img1, hst⟩ : ∃ img1,
      stepTag oracle fn t0 ⟨img0, none, none, 0⟩ = .more ⟨img1, some d, none, 0⟩ := by
    cases t0 with
    | orientation v => exact ⟨applyOrientation img0 v, by simp [stepTag, hds]⟩
    | otherTag => exact ⟨img0, by simp [stepTag, hds]⟩
    | dateTimeOriginal v => simp [plainTag] at hplain0
    | dateTime v => simp [plainTag] at hplain0
    | gpsInfo g2 => simp [plainTag] at hplain0
  obtain ⟨img2, hrt⟩ := runTags_plain_dates oracle fn rest ⟨img1, some d, none, 0⟩ d
    (fun t ht => hall t (by simp [ht])) rfl
  refine ⟨⟨img2, ?_⟩, fun fn2 => rfl⟩
  have hne : (t0 :: rest).isEmpty = false := rfl
  have hfull : runTags oracle fn (t0 :: rest) ⟨img0, none, none, 0⟩ =
      .more ⟨img2, some d, none, 0⟩ := by
    simpa [runTags, hst] using hrt
  simp [process_image, hne, processImageGo, runAttempt, hfull]

theorem c4_amended_filename_fallback_witness :
    ∃ img1, process_image geoNone 1 ("input/20180520_093724.jpg") img100 [ExifTag.otherTag] =
      some (.ok ⟨img1, some ("May 2018"), none⟩, 0) := by
  have h := c4_amended_filename_fallback geoNone ("input/20180520_093724.jpg") img100 0
    ExifTag.otherTag [] ("May 2018") (by decide) (by decide)
  exact h.1

theorem processFiles_outputs_mono (env : BatchEnv) (config : List (String × String))
    (ov : Bool) : ∀ (files outputs : List String) (x : String), x ∈ outputs →
      x ∈ (processFiles env config ov files outputs).2.1 := by
  intro files
  induction files with
  | nil => intro outputs x hx; exact hx
  | cons f rest ih =>
    intro outputs x hx
    simp only [processFiles]
    split
    · exact ih outputs x hx
    · rcases hr : runFile env f with _ | ⟨r, n⟩
      · exact hx
      · rcases r with e | v
        · exact hx
        · dsimp only
          split
          · exact ih (basename f :: outputs) x (by simp [hx])
          · exact ih outputs x hx

theorem processFiles_second_run (env : BatchEnv) (config : List (String × String)) :
    ∀ (files outputs : List String) (ws : List FooterOut) (out1 O : List String),
      processFiles env config false files outputs = (ws, out1, true) →
      (∀ x, x ∈ out1 → x ∈ O) →
      (processFiles env config false files O).1 = [] := by
  intro files
  induction files with
  | nil =>
    intro outputs ws out1 O h hO
    rfl
  | cons f rest ih =>
    intro outputs ws out1 O h hO
    by_cases hb : hasName outputs (basename f) = true
    · simp only [processFiles, Bool.not_false, Bool.true_and, hb, if_true] at h
      have hmem : basename f ∈ (processFiles env config false rest outputs).2.1 :=
        processFiles_outputs_mono env config false rest outputs _ ((hasName_iff _ _).mp hb)
      rw [h] at hmem
      have hbO : hasName O (basename f) = true := (hasName_iff O _).mpr (hO _ hmem)
      simp only [processFiles, Bool.not_false, Bool.true_and, hbO, if_true]
      exact ih outputs ws out1 O h hO
    · rw [Bool.not_eq_true] at hb
      simp only [processFiles, Bool.not_false, Bool.true_and, hb, Bool.false_eq_true,
        if_false] at h
      rcases hr : runFile env f with _ | ⟨r, n⟩
      · rw [hr] at h
        dsimp only at h
        exact absurd (congrArg (fun p => p.2.2) h) (by simp)
      · rcases r with e | v
        · rw [hr] at h
          dsimp only at h
          exact absurd (congrArg (fun p => p.2.2) h) (by simp)
        · rw [hr] at h
          dsimp only at h
          by_cases ht : truthyStr v.date = true
          · rw [if_pos ht] at h
            have h1 : (processFiles env config false rest (basename f :: outputs)).2.1 = out1 :=
              congrArg (fun p => p.2.1) h
            have h2 : (processFiles env config false rest (basename f :: outputs)).2.2 = true :=
              congrArg (fun p => p.2.2) h
            have hmem : basename f ∈
                (processFiles env config false rest (basename f :: outputs)).2.1 :=
              processFiles_outputs_mono env config false rest (basename f :: outputs) _ (by simp)
            rw [h1] at hmem
            have hbO : hasName O (basename f) = true := (hasName_iff O _).mpr (hO _ hmem)
            simp only [processFiles, Bool.not_false, Bool.true_and, hbO, if_true]
            refine ih (basename f :: outputs)
              (processFiles env config false rest (basename f :: outputs)).1 out1 O ?_ hO
            rw [← h1, ← h2]
          · rw [if_neg ht] at h
            by_cases hbO : hasName O (basename f) = true
            · simp only [processFiles, Bool.not_false, Bool.true_and, hbO, if_true]
              exact ih outputs ws out1 O h hO
            · rw [Bool.not_eq_true] at hbO
              simp only [processFiles, Bool.not_false, Bool.true_and, hbO,
                Bool.false_eq_true, if_false, hr]
              rw [if_neg ht]
              exact ih outputs ws out1 O h hO

theorem processFiles_fresh (env : BatchEnv) (config : List (String × String)) :
    ∀ (files outputs : List String) (w : FooterOut),
      w ∈ (processFiles env config false files outputs).1 → w.name ∉ outputs := by
  intro files
  induction files with
  | nil =>
    intro outputs w hw
    simp [processFiles] at hw
  | cons f rest ih =>
    intro outputs w hw
    by_cases hb : hasName outputs (basename f) = true
    · simp only [processFiles, Bool.not_false, Bool.true_and, hb, if_true] at hw
      exact ih outputs w hw
    · rw [Bool.not_eq_true] at hb
      simp only [processFiles, Bool.not_false, Bool.true_and, hb, Bool.false_eq_true,
        if_false] at hw
      rcases hr : runFile env f with _ | ⟨r, n⟩
      · rw [hr] at hw
        dsimp only at hw
        simp at hw
      · rcases r with e | v
        · rw [hr] at hw
          dsimp only at hw
          simp at hw
        · rw [hr] at hw
          dsimp only at hw
          by_cases ht : truthyStr v.date = true
          · rw [if_pos ht] at hw
            rcases List.mem_cons.mp hw with hw1 | hw2
            · subst hw1
              intro hmem
              exact absurd ((hasName_iff outputs (basename f)).mpr hmem) (by simp [hb])
            · have hnotin := ih (basename f :: outputs) w hw2
              intro hmem
              exact hnotin (by simp [hmem])
          · rw [if_neg ht] at hw
            exact ih outputs w hw

/-- C9: with overwrite disabled, a file whose base name already exists in
the output set is skipped and never rewritten: every footer written names
a base name that was not present before the run, and re-running the batch
over the unchanged input with the outputs of a completed first run in
place performs no writes at all. -/
theorem c9_idempotent (env : BatchEnv) (config : List (String × String))
    (input : String) (listing outputs0 : List String) (ws : List FooterOut)
    (out1 : List String)
    (h : process_images env config false outputs0 input listing = (ws, out1, true)) :
    (process_images env config false out1 input listing).1 = [] ∧
    ∀ w ∈ ws, w.name ∉ outputs0 := by
  constructor
  · exact processFiles_second_run env config (get_image_files input listing)
      outputs0 ws out1 out1 h (fun x hx => hx)
  · intro w hw
    have h1 : ws = (processFiles env config false (get_image_files input listing) outputs0).1 :=
      (congrArg (fun p => p.1) h).symm
    rw [h1] at hw
    exact processFiles_fresh env config (get_image_files input listing) outputs0 w hw

theorem c9_idempotent_witness :
    (process_images envC9 [] false ["a.jpg"] ("in") ["a.jpg"]).1 = [] := by
  have h := c9_idempotent envC9 [] ("in") ["a.jpg"] []
    [⟨("a.jpg"), 100, 100, 3, 2, 1, 97, ("May 2018"), 0⟩] ["a.jpg"] (by decide)
  exact h.1
